import Mathlib

/-!
Shallow embedding of `src/simulation/simulation.cpp` (the PUMLE batch
scheduler).  The file system is modelled as the list of paths that exist;
`run_simulation` mirrors the C++ function of the same name, returning the
job's outcome together with the updated file system; `mainRun` mirrors
`main` (directory creation, discovery, sorting, dispatch, aggregation).
The external Octave engine is a parameter `eng : String → Int` mapping the
composed command line to its exit status.  The concurrent OpenMP loop with
its critical section is modelled by folding `recordStatus` over the job
statuses in an arbitrary order (any interleaving of the critical sections
is some permutation of the per-job statuses).
-/

namespace PUMLE

/-- A file-system snapshot: the set of existing paths, as a list. -/
abbrev FS := List String

/-- Model of `fs::exists` on a snapshot. -/
def pathExists (fs : FS) (p : String) : Bool := decide (p ∈ fs)

/-- The single-quote character (ASCII 39) used by the command builder. -/
def sqChar : Char := Char.ofNat 39

/-- The single-quote as a one-character string. -/
def sq : String := String.singleton sqChar

/-- The ten semantic-role file-name bases, in the order of `param_files`
in `simulation.cpp` (lines 35-39). -/
def param_files : List String :=
  ["Paths_", "PreProcessing_", "Grid_", "Fluid_",
   "InitialConditions_", "BoundaryConditions_", "Wells_",
   "Schedule_", "EXECUTION_", "SimNums_"]

/-- The path-separator character. -/
def slashChar : Char := Char.ofNat 47

/-- Model of `fs::path(folder).filename().string()`: the part of the path
after the last `/` (the whole string when no `/` occurs). -/
def baseName (folder : String) : String :=
  String.mk (folder.data.foldl (fun acc c => if c = slashChar then [] else acc ++ [c]) [])

/-- Model of `baseName.substr(8)`: the job id, the directory name with its
first 8 characters stripped (line 64). -/
def hashOf (folder : String) : String := String.mk ((baseName folder).data.drop 8)

/-- Model of `folder + "/" + prefix + hash + ".mat"` (line 65). -/
def inputFile (folder role : String) : String :=
  folder ++ ("/" ++ (role ++ (hashOf folder ++ ".mat")))

/-- The ten required input files of a job, in role order. -/
def inputFiles (folder : String) : List String := param_files.map (inputFile folder)

/-- Model of `folder + "/completed.flag"` (line 15). -/
def completionFlag (folder : String) : String := folder ++ "/completed.flag"

/-- Model of `current_dir + "/simulation/co2lab3DPUMLE.m"` (line 24). -/
def scriptPath (cwd : String) : String := cwd ++ "/simulation/co2lab3DPUMLE.m"

/-- Model of `current_path + "/" + "data_lake/staging/"` (lines 96-97). -/
def stagingRoot (cwd : String) : String := cwd ++ "/data_lake/staging/"

/-- The command built before the loop (lines 48-49):
`octave --eval "addpath('<cwd>/simulation'); co2lab3DPUMLE(`. -/
def cmdHead (cwd : String) : String :=
  "octave --eval \"addpath(" ++ (sq ++ (cwd ++ ("/simulation" ++ (sq ++ "); co2lab3DPUMLE("))))

/-- The closing `)"` appended after the loop (line 76). -/
def closeParen : String := ")\""

/-- Model of `std::string::pop_back`. -/
def popBack (s : String) : String := String.mk s.data.dropLast

/-- The per-job failure kinds surfaced on stderr by `run_simulation`. -/
inductive JobError where
  | ScriptNotFound : JobError
  | MissingInputFile : String → JobError
  | SimulationFailed : Int → JobError
  deriving Repr, DecidableEq

/-- Observable outcome of one `run_simulation` call: its return code,
whether `std::system` was invoked (and with which command and resulting
engine status), the error reported if any, and whether `completed.flag`
was written. -/
structure RunResult where
  code : Int
  invoked : Bool
  engineStatus : Option Int
  err : Option JobError
  flagWritten : Bool
  command : Option String
  deriving Repr, DecidableEq

/-- The loop of lines 51-71: for each role in order, check that the job's
input file exists (first missing file aborts with `return 1`) and append
`'<path>', ` to the command. -/
def buildLoop (fs : FS) (folder : String) : String → List String → Except String String
  | cmd, [] => Except.ok cmd
  | cmd, role :: rest =>
    let fp := inputFile folder role
    if pathExists fs fp then
      buildLoop fs folder (cmd ++ (sq ++ (fp ++ (sq ++ ", ")))) rest
    else Except.error fp

/-- Model of `run_simulation` (lines 13-91).  Returns the job outcome and
the updated file system (the only write is the creation of
`completed.flag` on success). -/
def run_simulation (fs : FS) (eng : String → Int) (cwd folder : String) :
    RunResult × FS :=
  if pathExists fs (completionFlag folder) then
    (⟨0, false, none, none, false, none⟩, fs)
  else if pathExists fs (scriptPath cwd) = false then
    (⟨1, false, none, some JobError.ScriptNotFound, false, none⟩, fs)
  else
    match buildLoop fs folder (cmdHead cwd) param_files with
    | Except.error p =>
        (⟨1, false, none, some (JobError.MissingInputFile p), false, none⟩, fs)
    | Except.ok cmd1 =>
        if eng (popBack (popBack cmd1) ++ closeParen) = 0 then
          (⟨0, true, some 0, none, true, some (popBack (popBack cmd1) ++ closeParen)⟩,
            completionFlag folder :: fs)
        else
          (⟨eng (popBack (popBack cmd1) ++ closeParen), true,
            some (eng (popBack (popBack cmd1) ++ closeParen)),
            some (JobError.SimulationFailed (eng (popBack (popBack cmd1) ++ closeParen))),
            false, some (popBack (popBack cmd1) ++ closeParen)⟩, fs)

/-- Sequential model of processing a list of job folders, threading the
file system (distinct jobs touch disjoint paths, so this also models the
per-job effects of the concurrent loop). -/
def runBatch (fs : FS) (eng : String → Int) (cwd : String) :
    List String → List RunResult × FS
  | [] => ([], fs)
  | f :: rest =>
    ((run_simulation fs eng cwd f).1 ::
        (runBatch (run_simulation fs eng cwd f).2 eng cwd rest).1,
      (runBatch (run_simulation fs eng cwd f).2 eng cwd rest).2)

/-- Model of `dirname.rfind("staging_", 0) == 0` (line 108): the name
begins with `staging_`. -/
def stagingName (name : String) : Bool := "staging_".data.isPrefixOf name.data

/-- Discovery (lines 104-120): keep the sub-directory entries whose name
begins with `staging_`, form their full paths, and sort. -/
def discover (root : String) (entries : List (String × Bool)) : List String :=
  List.insertionSort (· ≤ ·)
    ((entries.filter (fun e => e.2 && stagingName e.1)).map
      (fun e => root ++ e.1))

/-- Lines 100-102: the staging root is created when it does not exist. -/
def ensureRoot (fs : FS) (cwd : String) : FS :=
  if pathExists fs (stagingRoot cwd) then fs else stagingRoot cwd :: fs

/-- The discovery phase of `main` (lines 96-120): ensure the root
directory exists, then scan it.  Returns the file system after the phase
and the ordered folder list. -/
def discoveryPhase (fs : FS) (cwd : String) (entries : List (String × Bool)) :
    FS × List String :=
  (ensureRoot fs cwd, discover (stagingRoot cwd) entries)

/-- One critical-section write (lines 139-144): a non-zero status
overwrites the shared aggregate, a zero status leaves it unchanged. -/
def recordStatus (g s : Int) : Int := if s ≠ 0 then s else g

/-- The final value of `global_status` when the critical sections run in
the given order over the per-job statuses. -/
def finalStatus (order : List Int) : Int := order.foldl recordStatus 0

/-- Model of `main` (lines 93-154): ensure and scan the staging root,
fail with 1 when no folder matches, otherwise run every job and aggregate
the statuses.  Returns the exit code, the final file system, and the
per-job outcomes. -/
def mainRun (fs : FS) (eng : String → Int) (cwd : String)
    (entries : List (String × Bool)) : Int × FS × List RunResult :=
  if (discover (stagingRoot cwd) entries).isEmpty then (1, ensureRoot fs cwd, [])
  else
    (finalStatus
        ((runBatch (ensureRoot fs cwd) eng cwd (discover (stagingRoot cwd) entries)).1.map
          (fun r => r.code)),
      (runBatch (ensureRoot fs cwd) eng cwd (discover (stagingRoot cwd) entries)).2,
      (runBatch (ensureRoot fs cwd) eng cwd (discover (stagingRoot cwd) entries)).1)

/-- A quoted positional argument, as the spec describes it. -/
def quoteArg (p : String) : String := sq ++ (p ++ sq)

/-- Arguments joined by a separator (used to state the shape of the
composed command). -/
def sepBy (sep : String) : List String → String
  | [] => ""
  | [a] => a
  | a :: b :: rest => a ++ (sep ++ sepBy sep (b :: rest))

/-- The shape the composed command line is proved to have when every
input file exists: the fixed head, then the ten quoted input paths in
role order separated by `, `, then the closing `)"`. -/
def builtCommand (cwd folder : String) : String :=
  cmdHead cwd ++ (sepBy ", " ((inputFiles folder).map quoteArg) ++ closeParen)

theorem pathExists_iff {fs : FS} {p : String} : pathExists fs p = true ↔ p ∈ fs := by
  simp [pathExists]

theorem pathExists_false_iff {fs : FS} {p : String} : pathExists fs p = false ↔ p ∉ fs := by
  simp [pathExists]

theorem run_skip {fs : FS} {eng : String → Int} {cwd folder : String}
    (h : pathExists fs (completionFlag folder) = true) :
    run_simulation fs eng cwd folder = (⟨0, false, none, none, false, none⟩, fs) := by
  simp [run_simulation, h]

theorem run_noScript {fs : FS} {eng : String → Int} {cwd folder : String}
    (hflag : pathExists fs (completionFlag folder) = false)
    (hscript : pathExists fs (scriptPath cwd) = false) :
    run_simulation fs eng cwd folder =
      (⟨1, false, none, some JobError.ScriptNotFound, false, none⟩, fs) := by
  simp [run_simulation, hflag, hscript]

theorem buildLoop_error {fs : FS} {folder : String} :
    ∀ (roles : List String) (cmd : String),
      (∃ role ∈ roles, pathExists fs (inputFile folder role) = false) →
      ∃ p, buildLoop fs folder cmd roles = Except.error p
  | [], _, h => by simp at h
  | role :: rest, cmd, h => by
    by_cases hr : pathExists fs (inputFile folder role) = true
    · obtain ⟨p, hp⟩ :=
        buildLoop_error rest (cmd ++ (sq ++ (inputFile folder role ++ (sq ++ ", "))))
          (by
            rcases h with ⟨d, hd, hdf⟩
            rcases List.mem_cons.mp hd with rfl | hd'
            · rw [hr] at hdf; cases hdf
            · exact ⟨d, hd', hdf⟩)
      exact ⟨p, by simp [buildLoop, hr, hp]⟩
    · exact ⟨inputFile folder role, by simp [buildLoop, hr]⟩

theorem buildLoop_ok {fs : FS} {folder : String} :
    ∀ (roles : List String) (cmd : String), roles ≠ [] →
      (∀ role ∈ roles, pathExists fs (inputFile folder role) = true) →
      buildLoop fs folder cmd roles =
        Except.ok
          (cmd ++ (sepBy ", " (roles.map (fun role => quoteArg (inputFile folder role))) ++ ", "))
  | [], _, hne, _ => absurd rfl hne
  | [role], cmd, _, hex => by
    have h := hex role (by simp)
    simp [buildLoop, h, sepBy, quoteArg, String.append_assoc]
  | role :: b :: rest, cmd, _, hex => by
    have h := hex role (by simp)
    have ih :=
      buildLoop_ok (b :: rest) (cmd ++ (sq ++ (inputFile folder role ++ (sq ++ ", "))))
        (by simp) (fun d hd => hex d (List.mem_cons_of_mem _ hd))
    have step :
        buildLoop fs folder cmd (role :: b :: rest) =
          buildLoop fs folder (cmd ++ (sq ++ (inputFile folder role ++ (sq ++ ", "))))
            (b :: rest) := by
      simp [buildLoop, h]
    rw [step, ih]
    congr 1
    simp [sepBy, quoteArg, String.append_assoc, List.map_cons]

theorem popBack_popBack (t : String) : popBack (popBack (t ++ ", ")) = t := by
  apply String.ext
  show ((t ++ ", ").data.dropLast).dropLast = t.data
  rw [String.data_append]
  rw [show (", " : String).data = [Char.ofNat 44] ++ [Char.ofNat 32] from rfl]
  rw [← List.append_assoc, List.dropLast_concat, List.dropLast_concat]

theorem run_invoked_eq {fs : FS} {eng : String → Int} {cwd folder : String}
    (hflag : pathExists fs (completionFlag folder) = false)
    (hscript : pathExists fs (scriptPath cwd) = true)
    (hin : ∀ p ∈ inputFiles folder, pathExists fs p = true) :
    run_simulation fs eng cwd folder =
      if eng (builtCommand cwd folder) = 0 then
        (⟨0, true, some 0, none, true, some (builtCommand cwd folder)⟩,
          completionFlag folder :: fs)
      else
        (⟨eng (builtCommand cwd folder), true, some (eng (builtCommand cwd folder)),
          some (JobError.SimulationFailed (eng (builtCommand cwd folder))), false,
          some (builtCommand cwd folder)⟩, fs) := by
  have hok :
      buildLoop fs folder (cmdHead cwd) param_files =
        Except.ok
          (cmdHead cwd ++
            (sepBy ", " (param_files.map (fun role => quoteArg (inputFile folder role))) ++ ", ")) :=
    buildLoop_ok param_files (cmdHead cwd) (by simp [param_files])
      (fun role hr => hin _ (List.mem_map_of_mem _ hr))
  have hcmd :
      popBack
          (popBack
            (cmdHead cwd ++
              (sepBy ", " (param_files.map (fun role => quoteArg (inputFile folder role))) ++ ", "))) ++
          closeParen =
        builtCommand cwd folder := by
    rw [← String.append_assoc, popBack_popBack, builtCommand, inputFiles, List.map_map]
    rw [String.append_assoc]
    rfl
  simp only [run_simulation, hflag, hscript, hok, hcmd]
  simp

theorem run_snd {fs : FS} {eng : String → Int} {cwd folder : String} :
    (run_simulation fs eng cwd folder).2 = fs ∨
      (run_simulation fs eng cwd folder).2 = completionFlag folder :: fs := by
  unfold run_simulation
  split
  · exact Or.inl rfl
  · split
    · exact Or.inl rfl
    · split
      · exact Or.inl rfl
      · split
        · exact Or.inr rfl
        · exact Or.inl rfl

theorem run_mono {fs : FS} {eng : String → Int} {cwd folder : String} :
    ∀ p ∈ fs, p ∈ (run_simulation fs eng cwd folder).2 := by
  intro p hp
  rcases @run_snd fs eng cwd folder with h | h
  · rw [h]; exact hp
  · rw [h]; exact List.mem_cons_of_mem _ hp

theorem flag_mem_of_code_zero {fs : FS} {eng : String → Int} {cwd folder : String}
    (h : (run_simulation fs eng cwd folder).1.code = 0) :
    completionFlag folder ∈ (run_simulation fs eng cwd folder).2 := by
  revert h
  unfold run_simulation
  split
  · rename_i hc
    intro _
    exact pathExists_iff.mp hc
  · split
    · intro h
      cases h
    · split
      · intro h
        cases h
      · split
        · intro _
          exact List.mem_cons_self _ _
        · rename_i hst
          intro h
          exact absurd h hst

theorem runBatch_mono {eng : String → Int} {cwd : String} :
    ∀ (folders : List String) (fs : FS), ∀ p ∈ fs, p ∈ (runBatch fs eng cwd folders).2
  | [], _, _, hp => hp
  | f :: rest, fs, p, hp =>
    runBatch_mono rest (run_simulation fs eng cwd f).2 p (run_mono p hp)

theorem batch_flags {eng : String → Int} {cwd : String} :
    ∀ (folders : List String) (fs : FS),
      (∀ r ∈ (runBatch fs eng cwd folders).1, r.code = 0) →
      ∀ f ∈ folders, completionFlag f ∈ (runBatch fs eng cwd folders).2
  | [], _, _, _, hf => by cases hf
  | f :: rest, fs, hall, g, hg => by
    rcases List.mem_cons.mp hg with rfl | hg'
    · have h0 : (run_simulation fs eng cwd g).1.code = 0 :=
        hall _ (List.mem_cons_self _ _)
      exact runBatch_mono rest _ _ (flag_mem_of_code_zero h0)
    · exact
        batch_flags rest (run_simulation fs eng cwd f).2
          (fun r hr => hall r (List.mem_cons_of_mem _ hr)) g hg'

theorem batch_skips {eng : String → Int} {cwd : String} :
    ∀ (folders : List String) (fs : FS),
      (∀ f ∈ folders, completionFlag f ∈ fs) →
      ∀ r ∈ (runBatch fs eng cwd folders).1, r.invoked = false
  | [], _, _, _, hr => by cases hr
  | f :: rest, fs, hflags, r, hr => by
    have hskip := @run_skip fs eng cwd f
      (pathExists_iff.mpr (hflags f (List.mem_cons_self _ _)))
    simp only [runBatch, hskip, List.mem_cons] at hr
    rcases hr with rfl | hr'
    · rfl
    · exact batch_skips rest fs (fun g hg => hflags g (List.mem_cons_of_mem _ hg)) r hr'

theorem foldl_record_zero :
    ∀ (l : List Int) (g : Int), (∀ c ∈ l, c = 0) → l.foldl recordStatus g = g
  | [], _, _ => rfl
  | c :: l, g, h => by
    have hc : c = 0 := h c (List.mem_cons_self _ _)
    subst hc
    rw [List.foldl_cons, show recordStatus g 0 = g from by simp [recordStatus]]
    exact foldl_record_zero l g (fun d hd => h d (List.mem_cons_of_mem _ hd))

theorem foldl_record_ne :
    ∀ (l : List Int) (g : Int), (g ≠ 0 ∨ ∃ c ∈ l, c ≠ 0) → l.foldl recordStatus g ≠ 0
  | [], g, h => by
    rcases h with h | ⟨c, hc, _⟩
    · exact h
    · cases hc
  | c :: l, g, h => by
    rw [List.foldl_cons]
    by_cases hc : c = 0
    · subst hc
      rw [show recordStatus g 0 = g from by simp [recordStatus]]
      apply foldl_record_ne l g
      rcases h with h | ⟨d, hd, hdne⟩
      · exact Or.inl h
      · rcases List.mem_cons.mp hd with rfl | hd'
        · exact absurd rfl hdne
        · exact Or.inr ⟨d, hd', hdne⟩
    · rw [show recordStatus g c = c from by simp [recordStatus, hc]]
      exact foldl_record_ne l c (Or.inl hc)

theorem foldl_record_one :
    ∀ (l : List Int) (g : Int), (∀ c ∈ l, c = 0 ∨ c = 1) → (g = 0 ∨ g = 1) →
      (g = 1 ∨ ∃ c ∈ l, c = 1) → l.foldl recordStatus g = 1
  | [], g, _, _, hone => by
    rcases hone with h | ⟨c, hc, _⟩
    · exact h
    · cases hc
  | c :: l, g, hall, hg, hone => by
    rw [List.foldl_cons]
    rcases hall c (List.mem_cons_self _ _) with hc | hc
    · subst hc
      rw [show recordStatus g 0 = g from by simp [recordStatus]]
      apply foldl_record_one l g (fun d hd => hall d (List.mem_cons_of_mem _ hd)) hg
      rcases hone with h | ⟨d, hd, hdone⟩
      · exact Or.inl h
      · rcases List.mem_cons.mp hd with rfl | hd'
        · cases hdone
        · exact Or.inr ⟨d, hd', hdone⟩
    · subst hc
      rw [show recordStatus g 1 = 1 from by simp [recordStatus]]
      exact
        foldl_record_one l 1 (fun d hd => hall d (List.mem_cons_of_mem _ hd))
          (Or.inr rfl) (Or.inl rfl)

theorem stagingRoot_ne_scriptPath (cwd : String) : stagingRoot cwd ≠ scriptPath cwd := by
  intro h
  have hd : (stagingRoot cwd).data = (scriptPath cwd).data := by rw [h]
  rw [stagingRoot, scriptPath, String.data_append, String.data_append] at hd
  have := List.append_cancel_left hd
  exact absurd this (by decide)

theorem ensureRoot_script {fs : FS} {cwd : String}
    (h : pathExists fs (scriptPath cwd) = false) :
    pathExists (ensureRoot fs cwd) (scriptPath cwd) = false := by
  unfold ensureRoot
  split
  · exact h
  · rw [pathExists_false_iff] at h ⊢
    rw [List.mem_cons]
    rintro (hh | hh)
    · exact stagingRoot_ne_scriptPath cwd hh.symm
    · exact h hh

theorem ensureRoot_mono {fs : FS} {cwd : String} : ∀ p ∈ fs, p ∈ ensureRoot fs cwd := by
  intro p hp
  unfold ensureRoot
  split
  · exact hp
  · exact List.mem_cons_of_mem _ hp

theorem batch_noScript {eng : String → Int} {cwd : String} :
    ∀ (folders : List String) (fs : FS),
      pathExists fs (scriptPath cwd) = false →
      (runBatch fs eng cwd folders).2 = fs ∧
      (runBatch fs eng cwd folders).1.map (fun r => r.code) =
        folders.map (fun f => if pathExists fs (completionFlag f) then (0 : Int) else 1) ∧
      ∀ r ∈ (runBatch fs eng cwd folders).1, r.invoked = false
  | [], fs, _ => ⟨rfl, rfl, fun r hr => by cases hr⟩
  | f :: rest, fs, h => by
    obtain ⟨ih1, ih2, ih3⟩ := @batch_noScript eng cwd rest fs h
    by_cases hflag : pathExists fs (completionFlag f) = true
    · have hrun := @run_skip fs eng cwd f hflag
      refine ⟨?_, ?_, ?_⟩
      · simp only [runBatch, hrun]
        exact ih1
      · simp [runBatch, hrun, hflag, ih2]
      · intro r hr
        simp only [runBatch, hrun, List.mem_cons] at hr
        rcases hr with rfl | hr'
        · rfl
        · exact ih3 r hr'
    · have hflag' : pathExists fs (completionFlag f) = false :=
        Bool.not_eq_true _ ▸ Bool.eq_false_iff.mpr hflag
      have hrun := @run_noScript fs eng cwd f hflag' h
      refine ⟨?_, ?_, ?_⟩
      · simp only [runBatch, hrun]
        exact ih1
      · simp [runBatch, hrun, hflag', ih2]
      · intro r hr
        simp only [runBatch, hrun, List.mem_cons] at hr
        rcases hr with rfl | hr'
        · rfl
        · exact ih3 r hr'

/-- C10: a job whose folder contains `completed.flag` returns success (0)
unconditionally: no invocation, no error, no write, with no check of the
entry-point script or of the input files (the rest of the file system is
arbitrary). -/
theorem flagged_job_unconditional_success (fs : FS) (eng : String → Int)
    (cwd folder : String) (h : pathExists fs (completionFlag folder) = true) :
    run_simulation fs eng cwd folder = (⟨0, false, none, none, false, none⟩, fs) :=
  run_skip h

theorem flagged_job_unconditional_success_witness :
    run_simulation ["j/completed.flag"] (fun _ => 37) "/r" "j" =
      (⟨0, false, none, none, false, none⟩, ["j/completed.flag"]) :=
  flagged_job_unconditional_success ["j/completed.flag"] (fun _ => 37) "/r" "j" (by decide)

/-- C3: a job whose folder contains `completed.flag` is skipped (the
engine is not invoked for it), and rerunning a batch whose first run
returned 0 for every job performs zero invocations on the second run. -/
theorem completed_jobs_never_reinvoked (fs : FS) (eng : String → Int)
    (cwd folder : String) (folders : List String)
    (hflag : pathExists fs (completionFlag folder) = true)
    (hall : ∀ r ∈ (runBatch fs eng cwd folders).1, r.code = 0) :
    (run_simulation fs eng cwd folder).1.invoked = false ∧
    ∀ r ∈ (runBatch (runBatch fs eng cwd folders).2 eng cwd folders).1,
      r.invoked = false := by
  constructor
  · rw [run_skip hflag]
  · exact batch_skips folders _ (batch_flags folders fs hall)

theorem completed_jobs_never_reinvoked_witness :
    (run_simulation ["x/completed.flag"] (fun _ => 0) "/r" "x").1.invoked = false ∧
    ∀ r ∈ (runBatch (runBatch ["x/completed.flag"] (fun _ => 0) "/r" ["x"]).2
        (fun _ => 0) "/r" ["x"]).1, r.invoked = false :=
  completed_jobs_never_reinvoked ["x/completed.flag"] (fun _ => 0) "/r" "x" ["x"]
    (by decide) (by decide)

/-- C2 counterexample: a job with every required input file missing but
whose folder contains `completed.flag` does not fail and records no
`MissingInputFile`: it returns 0 with no error, refuting the claim as
stated at this concrete input. -/
theorem missing_input_flagged_job_cex :
    (∃ p ∈ inputFiles "/r/data_lake/staging/staging_q",
        pathExists ["/r/data_lake/staging/staging_q/completed.flag"] p = false) ∧
    (run_simulation ["/r/data_lake/staging/staging_q/completed.flag"] (fun _ => 0) "/r"
        "/r/data_lake/staging/staging_q").1.code = 0 ∧
    (run_simulation ["/r/data_lake/staging/staging_q/completed.flag"] (fun _ => 0) "/r"
        "/r/data_lake/staging/staging_q").1.err = none :=
  ⟨by decide, by decide, by decide⟩

/-- C2 (amended): when any required input file of a job is missing the
engine is never invoked for it; and provided the job is not already marked
complete and the entry-point script exists, the job fails with code 1
recording a `MissingInputFile` error (a marked-complete job instead
returns success, and a missing script yields `ScriptNotFound`, in both
cases still without invocation). -/
theorem missing_input_no_invocation (fs : FS) (eng : String → Int) (cwd folder : String)
    (hmiss : ∃ p ∈ inputFiles folder, pathExists fs p = false) :
    (run_simulation fs eng cwd folder).1.invoked = false ∧
    (pathExists fs (completionFlag folder) = false →
      pathExists fs (scriptPath cwd) = true →
      (run_simulation fs eng cwd folder).1.code = 1 ∧
      ∃ p, (run_simulation fs eng cwd folder).1.err =
        some (JobError.MissingInputFile p)) := by
  obtain ⟨p0, hp0mem, hp0⟩ := hmiss
  obtain ⟨role0, hrole0, hrole0eq⟩ := List.mem_map.mp hp0mem
  obtain ⟨q, hq⟩ :=
    buildLoop_error param_files (cmdHead cwd)
      ⟨role0, hrole0, by rw [hrole0eq]; exact hp0⟩
  by_cases hflag : pathExists fs (completionFlag folder) = true
  · rw [run_skip hflag]
    exact ⟨rfl, fun hf _ => by rw [hflag] at hf; cases hf⟩
  · have hflag' : pathExists fs (completionFlag folder) = false := by simpa using hflag
    by_cases hscript : pathExists fs (scriptPath cwd) = true
    · have hrun : run_simulation fs eng cwd folder =
          (⟨1, false, none, some (JobError.MissingInputFile q), false, none⟩, fs) := by
        simp [run_simulation, hflag', hscript, hq]
      rw [hrun]
      exact ⟨rfl, fun _ _ => ⟨rfl, ⟨q, rfl⟩⟩⟩
    · have hscript' : pathExists fs (scriptPath cwd) = false := by simpa using hscript
      rw [run_noScript hflag' hscript']
      exact ⟨rfl, fun _ hs => by rw [hscript'] at hs; cases hs⟩

theorem missing_input_no_invocation_witness :
    (run_simulation [scriptPath "/r"] (fun _ => 0) "/r"
        "/r/data_lake/staging/staging_q").1.invoked = false ∧
    (run_simulation [scriptPath "/r"] (fun _ => 0) "/r"
        "/r/data_lake/staging/staging_q").1.code = 1 ∧
    ∃ p, (run_simulation [scriptPath "/r"] (fun _ => 0) "/r"
        "/r/data_lake/staging/staging_q").1.err = some (JobError.MissingInputFile p) := by
  have h := missing_input_no_invocation [scriptPath "/r"] (fun _ => 0) "/r"
    "/r/data_lake/staging/staging_q" (by decide)
  exact ⟨h.1, h.2 (by decide) (by decide)⟩

/-- C4: `completed.flag` is written iff the engine invocation for the job
returned exit status 0; it is never written on a missing-file failure or a
non-zero exit, and no existing path is ever removed, neither by one job
nor by a whole run of `main`. -/
theorem marker_written_iff_zero_exit (fs : FS) (eng : String → Int)
    (cwd folder : String) (entries : List (String × Bool)) :
    ((run_simulation fs eng cwd folder).1.flagWritten = true ↔
      (run_simulation fs eng cwd folder).1.engineStatus = some 0) ∧
    (∀ p ∈ fs, p ∈ (run_simulation fs eng cwd folder).2) ∧
    (∀ p ∈ fs, p ∈ (mainRun fs eng cwd entries).2.1) := by
  refine ⟨?_, run_mono, ?_⟩
  · unfold run_simulation
    split
    · simp
    · split
      · simp
      · split
        · simp
        · split
          · simp
          · rename_i hst
            simp [hst]
  · intro p hp
    unfold mainRun
    split
    · exact ensureRoot_mono p hp
    · exact runBatch_mono _ _ p (ensureRoot_mono p hp)

theorem marker_written_iff_zero_exit_witness :
    ("a" ∈ (run_simulation ["a"] (fun _ => 0) "/r" "x").2) ∧
    ("a" ∈ (mainRun ["a"] (fun _ => 0) "/r" []).2.1) :=
  ⟨(marker_written_iff_zero_exit ["a"] (fun _ => 0) "/r" "x" []).2.1 "a" (by decide),
    (marker_written_iff_zero_exit ["a"] (fun _ => 0) "/r" "x" []).2.2 "a" (by decide)⟩

/-- C1: for every run of the batch, under every ordering of the workers'
critical sections (hence for every worker-pool size), the final exit code
is 0 when no job failed and non-zero when at least one job failed. -/
theorem final_code_aggregation (fs : FS) (eng : String → Int) (cwd : String)
    (entries : List (String × Bool)) (order : List Int)
    (hne : (mainRun fs eng cwd entries).2.2 ≠ [])
    (hperm : order.Perm ((mainRun fs eng cwd entries).2.2.map (fun r => r.code))) :
    ((∀ r ∈ (mainRun fs eng cwd entries).2.2, r.code = 0) →
      (mainRun fs eng cwd entries).1 = 0 ∧ finalStatus order = 0) ∧
    ((∃ r ∈ (mainRun fs eng cwd entries).2.2, r.code ≠ 0) →
      (mainRun fs eng cwd entries).1 ≠ 0 ∧ finalStatus order ≠ 0) := by
  by_cases hE : (discover (stagingRoot cwd) entries).isEmpty
  · exfalso
    apply hne
    unfold mainRun
    rw [if_pos hE]
  · have hmain1 : (mainRun fs eng cwd entries).1 =
        finalStatus ((mainRun fs eng cwd entries).2.2.map (fun r => r.code)) := by
      unfold mainRun
      rw [if_neg hE]
    constructor
    · intro hall
      have hcodes : ∀ c ∈ (mainRun fs eng cwd entries).2.2.map (fun r => r.code), c = 0 := by
        intro c hc
        obtain ⟨r, hr, hrc⟩ := List.mem_map.mp hc
        rw [← hrc]
        exact hall r hr
      constructor
      · rw [hmain1]
        exact foldl_record_zero _ 0 hcodes
      · exact foldl_record_zero order 0 (fun c hc => hcodes c (hperm.mem_iff.mp hc))
    · rintro ⟨r, hr, hrne⟩
      have hmem : r.code ∈ (mainRun fs eng cwd entries).2.2.map (fun rr => rr.code) :=
        List.mem_map_of_mem _ hr
      constructor
      · rw [hmain1]
        exact foldl_record_ne _ 0 (Or.inr ⟨r.code, hmem, hrne⟩)
      · exact foldl_record_ne order 0 (Or.inr ⟨r.code, hperm.mem_iff.mpr hmem, hrne⟩)

theorem final_code_aggregation_witness :
    ((mainRun ["/r/data_lake/staging/", "/r/data_lake/staging/staging_a/completed.flag"]
        (fun _ => 0) "/r" [("staging_a", true)]).1 = 0 ∧
      finalStatus [0] = 0) ∧
    ((mainRun ["/r/data_lake/staging/"] (fun _ => 0) "/r" [("staging_a", true)]).1 ≠ 0 ∧
      finalStatus [1] ≠ 0) := by
  constructor
  · refine (final_code_aggregation
      ["/r/data_lake/staging/", "/r/data_lake/staging/staging_a/completed.flag"]
      (fun _ => 0) "/r" [("staging_a", true)] [0] ?_ ?_).1 ?_
    · decide
    · have h : (mainRun ["/r/data_lake/staging/", "/r/data_lake/staging/staging_a/completed.flag"]
          (fun _ => 0) "/r" [("staging_a", true)]).2.2.map (fun r => r.code) = [0] := by decide
      rw [h]
    · decide
  · refine (final_code_aggregation ["/r/data_lake/staging/"] (fun _ => 0) "/r"
      [("staging_a", true)] [1] ?_ ?_).2 ?_
    · decide
    · have h : (mainRun ["/r/data_lake/staging/"] (fun _ => 0) "/r"
          [("staging_a", true)]).2.2.map (fun r => r.code) = [1] := by decide
      rw [h]
    · decide

/-- C5 counterexample: with the entry-point script absent but a single
job already marked complete, the process exits with code 0, not 1 — the
missing script is not fatal for the whole batch before dispatch. -/
theorem missing_script_not_fatal_cex :
    pathExists ["/r/data_lake/staging/", "/r/data_lake/staging/staging_a/completed.flag"]
      (scriptPath "/r") = false ∧
    (mainRun ["/r/data_lake/staging/", "/r/data_lake/staging/staging_a/completed.flag"]
      (fun _ => 0) "/r" [("staging_a", true)]).1 = 0 :=
  ⟨by decide, by decide⟩

/-- C5 (amended): when the entry-point script cannot be located the engine
is never invoked for any job, but the check happens per job during
dispatch rather than before it: each job without a completion marker fails
with code 1, so the batch exit code is 1 when at least one discovered job
lacks `completed.flag` and 0 when every discovered job already has it. -/
theorem missing_script_per_job (fs : FS) (eng : String → Int) (cwd : String)
    (entries : List (String × Bool))
    (hscript : pathExists fs (scriptPath cwd) = false) :
    (∀ r ∈ (mainRun fs eng cwd entries).2.2, r.invoked = false) ∧
    ((∃ f ∈ discover (stagingRoot cwd) entries,
        pathExists (ensureRoot fs cwd) (completionFlag f) = false) →
      (mainRun fs eng cwd entries).1 = 1) ∧
    ((∀ f ∈ discover (stagingRoot cwd) entries,
        pathExists (ensureRoot fs cwd) (completionFlag f) = true) →
      discover (stagingRoot cwd) entries ≠ [] →
      (mainRun fs eng cwd entries).1 = 0) := by
  have hscript1 : pathExists (ensureRoot fs cwd) (scriptPath cwd) = false :=
    ensureRoot_script hscript
  obtain ⟨hfs, hcodes, hinv⟩ :=
    @batch_noScript eng cwd (discover (stagingRoot cwd) entries)
      (ensureRoot fs cwd) hscript1
  by_cases hE : (discover (stagingRoot cwd) entries).isEmpty
  · have hnil : discover (stagingRoot cwd) entries = [] := List.isEmpty_iff.mp hE
    refine ⟨?_, ?_, ?_⟩
    · intro r hr
      unfold mainRun at hr
      rw [if_pos hE] at hr
      cases hr
    · rintro ⟨f, hf, _⟩
      rw [hnil] at hf
      cases hf
    · intro _ hne
      exact absurd hnil hne
  · have hmain2 : (mainRun fs eng cwd entries).2.2 =
        (runBatch (ensureRoot fs cwd) eng cwd (discover (stagingRoot cwd) entries)).1 := by
      unfold mainRun
      rw [if_neg hE]
    have hmain1 : (mainRun fs eng cwd entries).1 =
        finalStatus
          ((runBatch (ensureRoot fs cwd) eng cwd (discover (stagingRoot cwd) entries)).1.map
            (fun r => r.code)) := by
      unfold mainRun
      rw [if_neg hE]
    have hzeroone : ∀ c ∈ (runBatch (ensureRoot fs cwd) eng cwd
        (discover (stagingRoot cwd) entries)).1.map (fun r => r.code), c = 0 ∨ c = 1 := by
      intro c hc
      rw [hcodes] at hc
      obtain ⟨f, _, hfc⟩ := List.mem_map.mp hc
      by_cases hfl : pathExists (ensureRoot fs cwd) (completionFlag f) = true
      · left; rw [← hfc, hfl]; rfl
      · right
        rw [← hfc, show pathExists (ensureRoot fs cwd) (completionFlag f) = false from
          by simpa using hfl]
        rfl
    refine ⟨?_, ?_, ?_⟩
    · intro r hr
      rw [hmain2] at hr
      exact hinv r hr
    · rintro ⟨f, hf, hfl⟩
      rw [hmain1]
      apply foldl_record_one _ 0 hzeroone (Or.inl rfl)
      refine Or.inr ⟨1, ?_, rfl⟩
      rw [hcodes]
      apply List.mem_map.mpr
      refine ⟨f, hf, ?_⟩
      simp [hfl]
    · intro hall _
      rw [hmain1]
      apply foldl_record_zero
      intro c hc
      rw [hcodes] at hc
      obtain ⟨f, hf, hfc⟩ := List.mem_map.mp hc
      rw [← hfc, hall f hf]
      rfl

theorem missing_script_per_job_witness :
    (∀ r ∈ (mainRun ["/r/data_lake/staging/"] (fun _ => 0) "/r"
        [("staging_a", true)]).2.2, r.invoked = false) ∧
    (mainRun ["/r/data_lake/staging/"] (fun _ => 0) "/r" [("staging_a", true)]).1 = 1 := by
  have h := missing_script_per_job ["/r/data_lake/staging/"] (fun _ => 0) "/r"
    [("staging_a", true)] (by decide)
  exact ⟨h.1, h.2.1 (by decide)⟩

/-- C6: discovery is deterministic: two scans of the same unchanged set of
directory entries (any permutation of the listing order) yield the same
folder sequence, and that sequence is sorted lexicographically by path. -/
theorem discovery_deterministic (root : String) (e1 e2 : List (String × Bool))
    (h : e1.Perm e2) :
    discover root e1 = discover root e2 ∧
    (discover root e1).Sorted (· ≤ ·) := by
  constructor
  · refine List.eq_of_perm_of_sorted ?_ (List.sorted_insertionSort _ _)
      (List.sorted_insertionSort _ _)
    exact (List.perm_insertionSort _ _).trans
      (((h.filter _).map _).trans (List.perm_insertionSort _ _).symm)
  · exact List.sorted_insertionSort _ _

theorem discovery_deterministic_witness :
    discover "/r/" [("staging_b", true), ("staging_a", true)] =
      discover "/r/" [("staging_a", true), ("staging_b", true)] ∧
    (discover "/r/" [("staging_b", true), ("staging_a", true)]).Sorted (· ≤ ·) :=
  discovery_deterministic "/r/" _ _
    (List.Perm.swap ("staging_a", true) ("staging_b", true) [])

/-- C7 counterexample: the discovery phase is not free of side effects:
when the staging root does not exist, running it creates the root, so the
file system after the phase differs from the one before. -/
theorem discovery_creates_root_cex : (discoveryPhase [] "/r" []).1 ≠ ([] : FS) := by
  decide

/-- C7 (amended): the scan itself is a pure function of the directory
listing, and the discovery phase leaves the file system unchanged whenever
the staging root already exists; the only write the phase can perform is
creating a missing staging root. -/
theorem discovery_readonly_when_root_exists (fs : FS) (cwd : String)
    (entries : List (String × Bool))
    (h : pathExists fs (stagingRoot cwd) = true) :
    (discoveryPhase fs cwd entries).1 = fs := by
  simp [discoveryPhase, ensureRoot, h]

theorem discovery_readonly_when_root_exists_witness :
    (discoveryPhase ["/r/data_lake/staging/"] "/r" [("staging_a", true)]).1 =
      ["/r/data_lake/staging/"] :=
  discovery_readonly_when_root_exists ["/r/data_lake/staging/"] "/r"
    [("staging_a", true)] (by decide)

/-- C8 counterexample: a path containing the single-quote character — the
character that breaks the builder's own quoting — is not rejected: with
all ten input files present the engine is still invoked for the job. -/
theorem quote_breaking_path_not_rejected_cex :
    (∃ p ∈ inputFiles ("/r/data_lake/staging/staging_a" ++ sq ++ "b"),
        p.data.contains sqChar = true) ∧
    (run_simulation
        (scriptPath "/r" :: inputFiles ("/r/data_lake/staging/staging_a" ++ sq ++ "b"))
        (fun _ => 0) "/r"
        ("/r/data_lake/staging/staging_a" ++ sq ++ "b")).1.invoked = true :=
  ⟨by decide, by decide⟩

/-- C8 (amended): the command builder performs no character validation at
all: any job whose ten input files exist is invoked, even when an input
path contains the single-quote character that breaks the builder's
quoting; the path is embedded verbatim between quotes. -/
theorem no_quoting_rejection (fs : FS) (eng : String → Int) (cwd folder : String)
    (hflag : pathExists fs (completionFlag folder) = false)
    (hscript : pathExists fs (scriptPath cwd) = true)
    (hin : ∀ p ∈ inputFiles folder, pathExists fs p = true)
    (hq : ∃ p ∈ inputFiles folder, p.data.contains sqChar = true) :
    (run_simulation fs eng cwd folder).1.invoked = true := by
  rw [run_invoked_eq hflag hscript hin]
  split <;> rfl

theorem no_quoting_rejection_witness :
    (run_simulation
        (scriptPath "/q" :: inputFiles ("/q/data_lake/staging/staging_c" ++ sq ++ "d"))
        (fun _ => 0) "/q"
        ("/q/data_lake/staging/staging_c" ++ sq ++ "d")).1.invoked = true :=
  no_quoting_rejection
    (scriptPath "/q" :: inputFiles ("/q/data_lake/staging/staging_c" ++ sq ++ "d"))
    (fun _ => 0) "/q" ("/q/data_lake/staging/staging_c" ++ sq ++ "d")
    (by decide) (by decide) (by decide) (by decide)

/-- C9: every invoked job's composed command passes exactly the ten
input-file paths as single-quoted positional arguments, in the fixed role
order, each of the form `<folder>/<role><ID>.mat` where `ID` is the
folder's base name with its first 8 characters stripped. -/
theorem command_positional_shape (fs : FS) (eng : String → Int) (cwd folder : String)
    (hflag : pathExists fs (completionFlag folder) = false)
    (hscript : pathExists fs (scriptPath cwd) = true)
    (hin : ∀ p ∈ inputFiles folder, pathExists fs p = true) :
    (run_simulation fs eng cwd folder).1.invoked = true ∧
    (run_simulation fs eng cwd folder).1.command = some (builtCommand cwd folder) ∧
    (inputFiles folder).length = 10 ∧
    inputFiles folder =
      param_files.map
        (fun role => folder ++ ("/" ++ (role ++
          (String.mk ((baseName folder).data.drop 8) ++ ".mat")))) := by
  refine ⟨?_, ?_, by simp [inputFiles, param_files], rfl⟩
  · rw [run_invoked_eq hflag hscript hin]
    split <;> rfl
  · rw [run_invoked_eq hflag hscript hin]
    split <;> rfl

theorem command_positional_shape_witness :
    (run_simulation
        (scriptPath "/r" :: inputFiles "/r/data_lake/staging/staging_aaaa1111")
        (fun _ => 0) "/r" "/r/data_lake/staging/staging_aaaa1111").1.invoked = true ∧
    (run_simulation
        (scriptPath "/r" :: inputFiles "/r/data_lake/staging/staging_aaaa1111")
        (fun _ => 0) "/r" "/r/data_lake/staging/staging_aaaa1111").1.command =
      some (builtCommand "/r" "/r/data_lake/staging/staging_aaaa1111") ∧
    (inputFiles "/r/data_lake/staging/staging_aaaa1111").length = 10 ∧
    inputFiles "/r/data_lake/staging/staging_aaaa1111" =
      param_files.map
        (fun role => "/r/data_lake/staging/staging_aaaa1111" ++ ("/" ++ (role ++
          (String.mk ((baseName "/r/data_lake/staging/staging_aaaa1111").data.drop 8) ++
            ".mat")))) :=
  command_positional_shape
    (scriptPath "/r" :: inputFiles "/r/data_lake/staging/staging_aaaa1111")
    (fun _ => 0) "/r" "/r/data_lake/staging/staging_aaaa1111"
    (by decide) (by decide) (by decide)

end PUMLE
